import Mathlib

/-
  Shallow embedding of the GlobalProtect-openconnect login pipeline.

  Rust strings (&str / String) are modelled as lists of bytes (`List Nat`,
  each entry < 256), since the relevant Rust code (percent-encoding,
  substring search, redaction) operates on the UTF-8 byte representation.
  `ascii` converts an ASCII Lean string literal to its byte list.
-/

namespace GP

/-- Byte strings: the model of Rust `&str` / `String` values. -/
abbrev Str := List Nat

/-- Byte list of an ASCII string literal. -/
def ascii (s : String) : Str := s.data.map Char.toNat

/-- Predicate `leadEq needle hay`: `needle` is element-wise an initial run of `hay`. -/
def leadEq : Str → Str → Bool
  | [], _ => true
  | _ :: _, [] => false
  | a :: as, b :: bs => a == b && leadEq as bs

/-- Substring containment, the model of Rust `str::contains`. -/
def containsSub (needle : Str) : Str → Bool
  | [] => needle.isEmpty
  | b :: rest => leadEq needle (b :: rest) || containsSub needle rest

/-- Byte index of the first substring occurrence, the model of Rust `str::find(&str)`. -/
def findSub (needle : Str) : Str → Option Nat
  | [] => if needle.isEmpty then some 0 else none
  | b :: rest =>
    if leadEq needle (b :: rest) then some 0
    else (findSub needle rest).map (· + 1)

/-- Index of the first element satisfying `p`, the model of Rust `str::find(pred)`
for ASCII predicates (multi-byte characters never match an ASCII predicate,
so the byte-level scan agrees with the char-level one). -/
def findIdxB (p : Nat → Bool) : Str → Option Nat
  | [] => none
  | b :: rest => if p b then some 0 else (findIdxB p rest).map (· + 1)

/-- Split at every occurrence of `sep`, keeping empty pieces: the model of
Rust `str::split(char)` (which yields n+1 pieces for n separators). -/
def splitByte (sep : Nat) : Str → List Str
  | [] => [[]]
  | b :: rest =>
    if b == sep then [] :: splitByte sep rest
    else
      match splitByte sep rest with
      | h :: t => (b :: h) :: t
      | [] => [[b]]

/-- Strip one trailing carriage return (Rust `str::lines` behaviour). -/
def stripCr (l : Str) : Str :=
  if l.getLast? = some 13 then l.dropLast else l

/-- The model of Rust `str::lines`: split at LF, drop the optional final
empty piece, strip a trailing CR from each line. -/
def linesOf (s : Str) : List Str :=
  let parts := splitByte 10 s
  let parts2 := if parts.getLast? = some [] then parts.dropLast else parts
  parts2.map stripCr

/-- Model of `Vec::join("&")` on already-rendered `key=value` pieces. -/
def joinAmp : List Str → Str
  | [] => []
  | [x] => x
  | x :: y :: rest => x ++ 38 :: joinAmp (y :: rest)

/-! ### The `urlencoding` crate (dependency of `gpapi`): `encode`, `decode` -/

/-- Bytes kept verbatim by `urlencoding::encode`:
`0-9`, `A-Z`, `a-z`, `-`, `.`, `_`, `~`. -/
def isUnreservedByte (b : Nat) : Bool :=
  (48 ≤ b && b ≤ 57) || (65 ≤ b && b ≤ 90) || (97 ≤ b && b ≤ 122) ||
  b == 45 || b == 46 || b == 95 || b == 126

/-- Uppercase hex digit byte for a nibble. -/
def hexDigitUpper (n : Nat) : Nat := if n < 10 then 48 + n else 55 + n

/-- Model of `urlencoding::encode` on one byte: unreserved bytes pass through,
everything else becomes `%` plus two uppercase hex digits. -/
def encodeByte (b : Nat) : Str :=
  if isUnreservedByte b then [b]
  else [37, hexDigitUpper (b / 16), hexDigitUpper (b % 16)]

/-- Model of `urlencoding::encode` over the whole byte string. -/
def encode : Str → Str
  | [] => []
  | b :: rest => encodeByte b ++ encode rest

/-- Value of a hex digit byte (`0-9`, `A-F`, `a-f`), as in `urlencoding`. -/
def hexVal (b : Nat) : Option Nat :=
  if 48 ≤ b && b ≤ 57 then some (b - 48)
  else if 65 ≤ b && b ≤ 70 then some (b - 55)
  else if 97 ≤ b && b ≤ 102 then some (b - 87)
  else none

/-- Model of `urlencoding::decode_binary`: a `%` followed by two hex digits becomes one
byte; a `%` whose first following byte is not a hex digit is emitted verbatim
and scanning resumes at that byte; a `%` with a valid first but invalid second
hex digit emits `%` and the first byte and resumes at the second; a `%` with
fewer than two following bytes emits itself and the remainder. -/
def decodeBinary : Str → Str
  | [] => []
  | b :: rest =>
    if b == 37 then
      match rest with
      | h1 :: h2 :: rest2 =>
        match hexVal h1 with
        | some a =>
          match hexVal h2 with
          | some c => (16 * a + c) :: decodeBinary rest2
          | none => 37 :: h1 :: decodeBinary (h2 :: rest2)
        | none => 37 :: decodeBinary (h1 :: h2 :: rest2)
      | _ => 37 :: rest
    else b :: decodeBinary rest

/-- A UTF-8 continuation byte. -/
def isCont (b : Nat) : Bool := 128 ≤ b && b ≤ 191

/-- UTF-8 validity of a byte string (the check performed by the Rust
`String::from_utf8`, which `urlencoding::decode` applies to the decoded
bytes): rejects overlong encodings, surrogates and values above U+10FFFF. -/
def utf8Valid : Str → Bool
  | [] => true
  | b :: rest =>
    if b ≤ 127 then utf8Valid rest
    else if 194 ≤ b && b ≤ 223 then
      match rest with
      | c1 :: r => isCont c1 && utf8Valid r
      | [] => false
    else if 224 ≤ b && b ≤ 239 then
      match rest with
      | c1 :: c2 :: r =>
        (if b == 224 then 160 ≤ c1 && c1 ≤ 191
         else if b == 237 then 128 ≤ c1 && c1 ≤ 159
         else isCont c1) && (isCont c2 && utf8Valid r)
      | _ => false
    else if 240 ≤ b && b ≤ 244 then
      match rest with
      | c1 :: c2 :: c3 :: r =>
        (if b == 240 then 144 ≤ c1 && c1 ≤ 191
         else if b == 244 then 128 ≤ c1 && c1 ≤ 143
         else isCont c1) && (isCont c2 && (isCont c3 && utf8Valid r))
      | _ => false
    else false

/-- Model of `urlencoding::decode`: decode the percent-escapes, then require the result
to be valid UTF-8; `none` models the `Err(FromUtf8Error)` case. -/
def decodeStr (s : Str) : Option Str :=
  let d := decodeBinary s
  if utf8Valid d then some d else none

/-!
### `crates/gpapi/src/gateway/login.rs`

`build_gateway_token` receives the list of `<argument>` element texts
extracted from the XML response (`element.descendants("argument")`, each
text via `get_text().unwrap_or_default()`); the embedding starts from that
argument array (`args : List Str`), which is what the claims quantify over.
The source function is split into its two halves: `gatewayTokenParams`
(lines 64-90: the ordered key/value list) and the final encode-and-join
(lines 92-101).
-/

/-- Function `normalize_token_value` (login.rs lines 113-119): if the value contains a
percent character, percent-decode it once, falling back to the raw value
when decoding fails; otherwise the raw value. -/
def normalize_token_value (value : Str) : Str :=
  if value.contains 37 then (decodeStr value).getD value else value

/-- Function `read_args` (login.rs lines 121-126): fetch a mandatory slot, or fail
with the message `Failed to read {key} from args`. -/
def read_args (args : List Str) (index : Nat) (key : Str) : Except Str (Str × Str) :=
  match args.get? index with
  | some s => .ok (key, s)
  | none => .error (ascii "Failed to read " ++ key ++ ascii " from args")

/-- Function `read_optional_arg` (login.rs lines 104-111): an optional slot counts as
absent when missing or when its value is one of the sentinels
`""`, `"(null)"`, `"-1"`, `"empty"`. -/
def read_optional_arg (args : List Str) (index : Nat) : Option Str := do
  let value ← args.get? index
  if value = [] ∨ value = ascii "(null)" ∨ value = ascii "-1" ∨ value = ascii "empty" then
    none
  else
    some value

/-- The `if let Some(v) = read_optional_arg(..) { params.push((key, v)) }`
pattern: the list segment contributed by one optional field. -/
def optField (key : Str) : Option Str → List (Str × Str)
  | some v => [(key, v)]
  | none => []

/-- Function `build_gateway_token`, first half (login.rs lines 64-90): the ordered
parameter list — five mandatory slots, the locally supplied `computer`,
then the three optional slots in push order. -/
def gatewayTokenParams (args : List Str) (computer : Str) : Except Str (List (Str × Str)) := do
  let a1 ← read_args args 1 (ascii "authcookie")
  let a3 ← read_args args 3 (ascii "portal")
  let a4 ← read_args args 4 (ascii "user")
  let a7 ← read_args args 7 (ascii "domain")
  let a15 ← read_args args 15 (ascii "preferred-ip")
  let params := [a1, a3, a4, a7, a15, (ascii "computer", computer)]
  let params := params ++ optField (ascii "persistent-cookie") (read_optional_arg args 2)
  let params := params ++ optField (ascii "portal-userauthcookie") (read_optional_arg args 16)
  let params := params ++ optField (ascii "portal-prelogonuserauthcookie") (read_optional_arg args 17)
  pure params

/-- One `key=value` piece (login.rs lines 94-97): normalize the value, then
percent-encode it. -/
def encodePair (p : Str × Str) : Str :=
  p.1 ++ 61 :: encode (normalize_token_value p.2)

/-- Function `build_gateway_token`, second half (login.rs lines 92-101): render every
pair and join with `&`. -/
def build_gateway_token (args : List Str) (computer : Str) : Except Str Str :=
  (gatewayTokenParams args computer).map (fun ps => joinAmp (ps.map encodePair))

/-- Function `parse_mfa`, message half (login.rs lines 129-132): first line containing
`respMsg`, then the first quoted substring of it (split at the double-quote
byte, piece 1). -/
def mfaMessage (res : Str) : Option Str :=
  ((linesOf res).find? (fun l => containsSub (ascii "respMsg") l)).bind
    (fun l => (splitByte 34 l).get? 1)

/-- Function `parse_mfa`, input-token half (login.rs lines 134-137): first line
containing `inputStr`, then the first quoted substring of it. -/
def mfaInput (res : Str) : Option Str :=
  ((linesOf res).find? (fun l => containsSub (ascii "inputStr") l)).bind
    (fun l => (splitByte 34 l).get? 1)

/-- Function `parse_mfa` (login.rs lines 128-140): both halves must succeed;
otherwise `none` (the caller turns `none` into an error, never a partial
`Mfa` value). -/
def parse_mfa (res : Str) : Option (Str × Str) := do
  let message ← mfaMessage res
  let input ← mfaInput res
  some (message, input)

/-!
### `crates/openconnect/src/ffi/mod.rs`: the PKCS#11 PIN redaction filter
-/

/-- The fixed marker key (ffi/mod.rs line 91). -/
def pinMarker : Str := ascii "pin-value="

/-- The fixed delimiter set terminating the PIN value span
(ffi/mod.rs line 99): `&`, `;`, space, apostrophe, double quote, `)`. -/
def isPinDelim (b : Nat) : Bool :=
  b == 38 || b == 59 || b == 32 || b == 39 || b == 34 || b == 41

/-- Function `redact_pkcs11_pin` (ffi/mod.rs lines 90-108): locate the marker, find
the value span terminated by the first delimiter (or the end of the input),
replace exactly that span with `<redacted>`. -/
def redact_pkcs11_pin (message : Str) : Str :=
  match findSub pinMarker message with
  | none => message
  | some start =>
    let valueStart := start + pinMarker.length
    let tail := message.drop valueStart
    let rel := (findIdxB isPinDelim tail).getD tail.length
    message.take valueStart ++ ascii "<redacted>" ++ message.drop (valueStart + rel)

/-!
### `crates/openconnect/src/vpn_utils.rs`: HIP-report-wrapper resolution

`is_executable_file` consults the filesystem; it is modelled as an explicit
executability predicate `isExec` passed to the functions, exactly as the
claim quantifies over it. `CSD_WRAPPER_LOCATIONS` is the list as compiled
for x86_64 Linux (the `cfg(target_arch = "aarch64")` and
`cfg(target_os = "macos")` entries are compiled out).
-/

/-- Constant `CSD_WRAPPER_LOCATIONS` (vpn_utils.rs lines 17-27), x86_64 Linux build. -/
def CSD_WRAPPER_LOCATIONS : List Str :=
  [ascii "/usr/libexec/gpclient/hipreport.sh",
   ascii "/usr/lib/x86_64-linux-gnu/openconnect/hipreport.sh",
   ascii "/usr/lib/openconnect/hipreport.sh",
   ascii "/usr/libexec/openconnect/hipreport.sh"]

/-- Function `resolve_csd_wrapper` (vpn_utils.rs lines 48-59): a non-empty override
that is executable wins; otherwise the first executable entry of
`locations`. -/
def resolve_csd_wrapper (isExec : Str → Bool) (overridePath : Option Str)
    (locations : List Str) : Option Str :=
  match overridePath.filter (fun p => !p.isEmpty) with
  | some p => if isExec p then some p else locations.find? isExec
  | none => locations.find? isExec

/-- Function `find_csd_wrapper` (vpn_utils.rs lines 61-64), with the
`GPCLIENT_HIP_WRAPPER` environment lookup passed in as `envOverride`. -/
def find_csd_wrapper (isExec : Str → Bool) (envOverride : Option Str) : Option Str :=
  resolve_csd_wrapper isExec envOverride CSD_WRAPPER_LOCATIONS

/-!
### Portal getconfig classification (claim C8)

The implementation of `retrieve_config` / `parse_gp_response` is code of
this repository that is not under `src/` (only its test,
`crates/gpapi/tests/saml_redirect_flow.rs`, is), so the classifier and the
portal-config fixture are modelled from the spec; the mock HTTP handler
`handle_hip_policy_getconfig` is embedded from the test source.
-/

/-- The auth-cookie triple held by a `PortalConfig` (spec §3). -/
structure AuthCookieData where
  username : Str
  userAuthCookie : Str
  prelogonUserAuthCookie : Str
  deriving DecidableEq, Repr

/-- A getconfig response body, abstracted: either a parseable portal-config
XML document (carrying its auth-cookie fields) or plain text. -/
inductive PortalBody where
  | configXml (cfg : AuthCookieData)
  | text (s : Str)
  deriving DecidableEq, Repr

/-- An HTTP response as seen by the classifier. -/
structure HttpResponse where
  status : Nat
  headers : List (Str × Str)
  body : PortalBody
  deriving DecidableEq, Repr

/-- Outcome of the getconfig round (spec §7 taxonomy, restricted to the
kinds this round can produce). -/
inductive GetconfigOutcome where
  | success (cfg : AuthCookieData)
  | hipRequired
  | parseError
  | otherError (status : Nat)
  deriving DecidableEq, Repr

/-- First header value for a name (exact match). -/
def lookupHeader (headers : List (Str × Str)) (name : Str) : Option Str :=
  (headers.find? (fun h => h.1 == name)).map (·.2)

/-- The vendor enforcement header name (spec §6). -/
def hipHeaderName : Str := ascii "x-private-pan-globalprotect"

/-- The vendor enforcement header value (spec §6). -/
def hipRequiredValue : Str := ascii "HIP_REQUIRED"

/-- Modelled from the spec: the response classification of the portal
getconfig round (`retrieve_config` / `parse_gp_response` in `gpapi`, not
under `src/`). Spec §4.2/§4.5: any response, regardless of status, carrying
the vendor enforcement header is classified `HipRequired`; a 2xx response
with the expected XML root parses into a `PortalConfig`; everything else is
an error carrying the status. -/
def classifyGetconfig (r : HttpResponse) : GetconfigOutcome :=
  if lookupHeader r.headers hipHeaderName = some hipRequiredValue then
    .hipRequired
  else if 200 ≤ r.status ∧ r.status < 300 then
    match r.body with
    | .configXml cfg => .success cfg
    | .text _ => .parseError
  else
    .otherError r.status

/-- Modelled from the spec: the `portal_config.xml` fixture (under
`tests/files/`, not under `src/`); per the test assertions its
auth-cookie fields are `user_auth_cookie = "xxxxxx"` and
`prelogon_user_auth_cookie = "xxxxxx"`. -/
def PORTAL_CONFIG_XML : PortalBody :=
  .configXml ⟨ascii "alice", ascii "xxxxxx", ascii "xxxxxx"⟩

/-- First form-parameter value for a name. -/
def lookupParam (params : List (Str × Str)) (name : Str) : Option Str :=
  (params.find? (fun p => p.1 == name)).map (·.2)

/-- Function `handle_hip_policy_getconfig` (saml_redirect_flow.rs lines 195-213):
unless the `portal-userauthcookie` form field equals `hip-ok-cookie`,
respond 403 with the enforcement header; otherwise 200 with the portal
config fixture. -/
def handle_hip_policy_getconfig (params : List (Str × Str)) : HttpResponse :=
  let cookie := (lookupParam params (ascii "portal-userauthcookie")).getD []
  if cookie ≠ ascii "hip-ok-cookie" then
    ⟨403, [(hipHeaderName, hipRequiredValue)],
      .text (ascii "HIP report is required by policy")⟩
  else
    ⟨200, [(ascii "content-type", ascii "application/xml")], PORTAL_CONFIG_XML⟩

/-!
### Concrete inputs used by examples and witnesses
-/

/-- The 16-slot argument array from the login.rs test
`gateway_token_avoids_double_encoding_for_encoded_domain`. -/
def testArgs16 : List Str :=
  [ascii "(null)", ascii "cookie-value", ascii "x", ascii "GP-Gateway-N",
   ascii "user@example.com", ascii "x", ascii "x", ascii "%28empty_domain%29",
   ascii "x", ascii "x", ascii "x", ascii "x", ascii "x", ascii "x",
   ascii "x", ascii "198.51.100.12"]

/-- The 18-slot argument array from the login.rs test
`gateway_token_includes_optional_portal_cookie_fields`. -/
def testArgs18 : List Str :=
  [ascii "(null)", ascii "cookie-value", ascii "persistent-cookie-value",
   ascii "GP-Gateway-N", ascii "user@example.com", ascii "x", ascii "x",
   ascii "%28empty_domain%29", ascii "x", ascii "x", ascii "x", ascii "x",
   ascii "x", ascii "x", ascii "x", ascii "198.51.100.12",
   ascii "portal-user-cookie-value", ascii "portal-prelogon-cookie-value"]

/-- The token produced for `testArgs16` with computer `test-host`. -/
def gatewayTokenExample : Str :=
  ascii "authcookie=cookie-value&portal=GP-Gateway-N&user=user%40example.com&domain=%28empty_domain%29&preferred-ip=198.51.100.12&computer=test-host&persistent-cookie=x"

/-- The MFA challenge body from the login.rs test `mfa`. -/
def mfaExampleBody : Str :=
  ascii "var respStatus = \"Challenge\";\nvar respMsg = \"MFA message\";\nthisForm.inputStr.value = \"5ef64e83000119ed\";"

/-- A 16-slot argument array whose domain slot holds a percent sequence that
decodes to invalid UTF-8 (`%C3` alone is a lone UTF-8 lead byte). -/
def badPercentArgs16 : List Str :=
  [ascii "(null)", ascii "cookie-value", ascii "", ascii "GP-Gateway-N",
   ascii "user", ascii "x", ascii "x", ascii "%C3",
   ascii "x", ascii "x", ascii "x", ascii "x", ascii "x", ascii "x",
   ascii "x", ascii "198.51.100.12"]

/-!
## Supporting lemmas
-/

theorem hexVal_hexDigitUpper : ∀ n, n < 16 → hexVal (hexDigitUpper n) = some n := by
  decide

theorem hexVal_lt {h a : Nat} (e : hexVal h = some a) : a < 16 := by
  unfold hexVal at e
  repeat' split at e
  all_goals simp_all
  all_goals omega

theorem decodeBinary_cons_of_ne {b : Nat} (l : Str) (h : (b == 37) = false) :
    decodeBinary (b :: l) = b :: decodeBinary l := by
  rw [decodeBinary.eq_def]
  simp [h]

theorem decodeBinary_percent {h1 h2 : Nat} (l : Str) {a c : Nat}
    (ea : hexVal h1 = some a) (ec : hexVal h2 = some c) :
    decodeBinary (37 :: h1 :: h2 :: l) = (16 * a + c) :: decodeBinary l := by
  rw [decodeBinary.eq_def]
  simp [ea, ec]

theorem decodeBinary_encode (s : Str) (hb : ∀ b ∈ s, b < 256) :
    decodeBinary (encode s) = s := by
  induction s with
  | nil => rfl
  | cons b s ih =>
    have hb' : ∀ x ∈ s, x < 256 := fun x hx => hb x (List.mem_cons_of_mem _ hx)
    have hblt : b < 256 := hb b (List.mem_cons_self _ _)
    rw [encode, encodeByte]
    by_cases h : isUnreservedByte b = true
    · have hne : b ≠ 37 := by rintro rfl; simp [isUnreservedByte] at h
      rw [if_pos h]
      rw [List.cons_append, List.nil_append,
        decodeBinary_cons_of_ne _ (by simpa using hne), ih hb']
    · rw [if_neg h]
      rw [List.cons_append, List.cons_append, List.cons_append, List.nil_append,
        decodeBinary_percent _ (hexVal_hexDigitUpper _ (by omega))
          (hexVal_hexDigitUpper _ (by omega)), ih hb']
      congr 1
      omega

theorem decodeBinary_lt (s : Str) : (∀ b ∈ s, b < 256) → ∀ x ∈ decodeBinary s, x < 256 := by
  induction s using decodeBinary.induct with
  | case1 => intro _ x hx; simp [decodeBinary] at hx
  | case2 b h37 h1 h2 rest2 a ea c ec ih =>
    obtain rfl : b = 37 := by simpa using h37
    intro hb x hx
    rw [decodeBinary_percent _ ea ec] at hx
    rcases List.mem_cons.mp hx with rfl | hx
    · have := hexVal_lt ea; have := hexVal_lt ec; omega
    · exact ih (fun y hy => hb y (by simp [List.mem_cons, hy])) x hx
  | case3 b h37 h1 h2 rest2 a ea ec ih =>
    obtain rfl : b = 37 := by simpa using h37
    intro hb x hx
    have he : decodeBinary (37 :: h1 :: h2 :: rest2) =
        37 :: h1 :: decodeBinary (h2 :: rest2) := by
      rw [decodeBinary.eq_def]
      simp [ea, ec]
    rw [he] at hx
    rcases List.mem_cons.mp hx with rfl | hx
    · omega
    rcases List.mem_cons.mp hx with rfl | hx
    · exact hb x (by simp [List.mem_cons])
    · exact ih (fun y hy => hb y (by simp [List.mem_cons] at hy ⊢; tauto)) x hx
  | case4 b h37 h1 h2 rest2 ea ih =>
    obtain rfl : b = 37 := by simpa using h37
    intro hb x hx
    have he : decodeBinary (37 :: h1 :: h2 :: rest2) =
        37 :: decodeBinary (h1 :: h2 :: rest2) := by
      rw [decodeBinary.eq_def]
      simp [ea]
    rw [he] at hx
    rcases List.mem_cons.mp hx with rfl | hx
    · omega
    · exact ih (fun y hy => hb y (by simp [List.mem_cons] at hy ⊢; tauto)) x hx
  | case5 b rest h37 hshort =>
    obtain rfl : b = 37 := by simpa using h37
    intro hb x hx
    have he : decodeBinary (37 :: rest) = 37 :: rest := by
      rcases rest with _ | ⟨y, _ | ⟨z, t⟩⟩
      · rfl
      · rfl
      · exact absurd rfl (by intro h; exact hshort y z t h)
    rw [he] at hx
    rcases List.mem_cons.mp hx with rfl | hx
    · omega
    · exact hb x (List.mem_cons_of_mem _ hx)
  | case6 b rest h37 ih =>
    intro hb x hx
    have hne : (b == 37) = false := by revert h37; cases (b == 37) <;> simp
    rw [decodeBinary_cons_of_ne _ hne] at hx
    rcases List.mem_cons.mp hx with rfl | hx
    · exact hb x (List.mem_cons_self _ _)
    · exact ih (fun y hy => hb y (List.mem_cons_of_mem _ hy)) x hx

/-- Round trip at the level of `urlencoding::decode` (including the UTF-8
validity check): encoding any valid UTF-8 byte string decodes back to it. -/
theorem decodeStr_encode (s : Str) (hb : ∀ b ∈ s, b < 256) (hv : utf8Valid s = true) :
    decodeStr (encode s) = some s := by
  unfold decodeStr
  rw [decodeBinary_encode s hb, if_pos hv]

theorem findIdxB_some_spec (p : Nat → Bool) :
    ∀ (l : Str) (i : Nat), findIdxB p l = some i →
      (∃ b, l.get? i = some b ∧ p b = true) ∧
      ∀ j b, j < i → l.get? j = some b → p b = false := by
  intro l
  induction l with
  | nil => intro i h; simp [findIdxB] at h
  | cons b rest ih =>
    intro i h
    rw [findIdxB] at h
    by_cases hp : p b = true
    · rw [if_pos hp] at h
      obtain rfl : i = 0 := by simpa using h.symm
      exact ⟨⟨b, rfl, hp⟩, fun j c hj => by omega⟩
    · rw [if_neg hp] at h
      obtain ⟨i', hi', rfl⟩ := Option.map_eq_some'.mp h
      obtain ⟨hfound, hbefore⟩ := ih i' hi'
      refine ⟨hfound, ?_⟩
      intro j c hj hget
      cases j with
      | zero =>
        obtain rfl : b = c := by simpa using hget
        exact Bool.eq_false_iff.mpr hp
      | succ j' => exact hbefore j' c (by omega) (by simpa using hget)

theorem findIdxB_none_spec (p : Nat → Bool) :
    ∀ (l : Str), findIdxB p l = none → ∀ b ∈ l, p b = false := by
  intro l
  induction l with
  | nil => intro _ b hb; simp at hb
  | cons b rest ih =>
    intro h c hc
    rw [findIdxB] at h
    by_cases hp : p b = true
    · rw [if_pos hp] at h; exact absurd h (by simp)
    · rw [if_neg hp] at h
      rcases List.mem_cons.mp hc with rfl | hc
      · exact Bool.eq_false_iff.mpr hp
      · exact ih (by simpa using h) c hc

theorem findSub_some_spec (pat : Str) :
    ∀ (l : Str) (s : Nat), findSub pat l = some s →
      leadEq pat (l.drop s) = true ∧ ∀ j, j < s → leadEq pat (l.drop j) = false := by
  intro l
  induction l with
  | nil =>
    intro s h
    rw [findSub] at h
    by_cases he : pat.isEmpty
    · rw [if_pos he] at h
      obtain rfl : s = 0 := by simpa using h.symm
      rcases pat with _ | _
      · exact ⟨rfl, fun j hj => by omega⟩
      · simp [List.isEmpty] at he
    · rw [if_neg he] at h; exact absurd h (by simp)
  | cons b rest ih =>
    intro s h
    rw [findSub] at h
    by_cases hl : leadEq pat (b :: rest) = true
    · rw [if_pos hl] at h
      obtain rfl : s = 0 := by simpa using h.symm
      exact ⟨hl, fun j hj => by omega⟩
    · rw [if_neg hl] at h
      obtain ⟨s', hs', rfl⟩ := Option.map_eq_some'.mp h
      obtain ⟨hfound, hbefore⟩ := ih s' hs'
      refine ⟨by simpa using hfound, ?_⟩
      intro j hj
      cases j with
      | zero => simpa using Bool.eq_false_iff.mpr hl
      | succ j' => simpa using hbefore j' (by omega)

theorem containsSub_false_findSub (pat : Str) :
    ∀ (l : Str), containsSub pat l = false → findSub pat l = none := by
  intro l
  induction l with
  | nil =>
    intro h
    rw [containsSub] at h
    rw [findSub, if_neg (by simp [h])]
  | cons b rest ih =>
    intro h
    rw [containsSub, Bool.or_eq_false_iff] at h
    rw [findSub, if_neg (by simp [h.1]), ih h.2]
    rfl

theorem mem_optField {k k' v : Str} {o : Option Str} :
    (k, v) ∈ optField k' o ↔ (k = k' ∧ o = some v) := by
  cases o with
  | none => simp [optField]
  | some w => simp [optField]; tauto

/-- The sentinel set for optional slots, as data (spec §9). -/
def isSentinel (v : Str) : Bool :=
  v == [] || v == ascii "(null)" || v == ascii "-1" || v == ascii "empty"

theorem read_optional_arg_eq_some {args : List Str} {i : Nat} {v : Str} :
    read_optional_arg args i = some v ↔
      (args.get? i = some v ∧ isSentinel v = false) := by
  unfold read_optional_arg isSentinel
  cases h : args.get? i with
  | none => simp [h]
  | some w =>
    show (if w = [] ∨ w = ascii "(null)" ∨ w = ascii "-1" ∨ w = ascii "empty" then none else some w) = some v ↔ _
    by_cases hw : w = [] ∨ w = ascii "(null)" ∨ w = ascii "-1" ∨ w = ascii "empty"
    · rw [if_pos hw]
      constructor
      · intro hc; exact absurd hc (by simp)
      · rintro ⟨hv, hs⟩
        obtain rfl : w = v := by simpa using hv
        simp only [Bool.or_eq_false_iff, beq_eq_false_iff_ne] at hs
        tauto
    · rw [if_neg hw]
      constructor
      · intro hc
        obtain rfl : w = v := by simpa using hc
        refine ⟨rfl, ?_⟩
        simp only [Bool.or_eq_false_iff, beq_eq_false_iff_ne]
        tauto
      · rintro ⟨hv, _⟩
        simpa using hv

/-- The parameter list produced when all five mandatory slots are present. -/
theorem gatewayTokenParams_eq (args : List Str) (computer v1 v3 v4 v7 v15 : Str)
    (h1 : args.get? 1 = some v1) (h3 : args.get? 3 = some v3)
    (h4 : args.get? 4 = some v4) (h7 : args.get? 7 = some v7)
    (h15 : args.get? 15 = some v15) :
    gatewayTokenParams args computer = .ok
      ([(ascii "authcookie", v1), (ascii "portal", v3), (ascii "user", v4),
        (ascii "domain", v7), (ascii "preferred-ip", v15), (ascii "computer", computer)]
        ++ optField (ascii "persistent-cookie") (read_optional_arg args 2)
        ++ optField (ascii "portal-userauthcookie") (read_optional_arg args 16)
        ++ optField (ascii "portal-prelogonuserauthcookie") (read_optional_arg args 17)) := by
  unfold gatewayTokenParams read_args
  rw [h1, h3, h4, h7, h15]
  rfl

/-- The token produced when all five mandatory slots are present. -/
theorem build_gateway_token_eq (args : List Str) (computer v1 v3 v4 v7 v15 : Str)
    (h1 : args.get? 1 = some v1) (h3 : args.get? 3 = some v3)
    (h4 : args.get? 4 = some v4) (h7 : args.get? 7 = some v7)
    (h15 : args.get? 15 = some v15) :
    build_gateway_token args computer = .ok (joinAmp
      (([(ascii "authcookie", v1), (ascii "portal", v3), (ascii "user", v4),
        (ascii "domain", v7), (ascii "preferred-ip", v15), (ascii "computer", computer)]
        ++ optField (ascii "persistent-cookie") (read_optional_arg args 2)
        ++ optField (ascii "portal-userauthcookie") (read_optional_arg args 16)
        ++ optField (ascii "portal-prelogonuserauthcookie") (read_optional_arg args 17)).map
          encodePair)) := by
  unfold build_gateway_token
  rw [gatewayTokenParams_eq args computer v1 v3 v4 v7 v15 h1 h3 h4 h7 h15]
  rfl

/-!
## Claim theorems
-/

/-- Claim C1: with mandatory slots 1, 3, 4, 7 and 15 present,
`build_gateway_token` returns the `&`-join of the `key=value` pairs in
exactly the fixed order authcookie (slot 1), portal (slot 3), user (slot 4),
domain (slot 7), preferred-ip (slot 15), computer, followed by
persistent-cookie / portal-userauthcookie / portal-prelogonuserauthcookie
only when included; the computer pair is built from the locally supplied
`computer` parameter, not from any argument slot. -/
theorem C1_token_fixed_order (args : List Str) (computer v1 v3 v4 v7 v15 : Str)
    (h1 : args.get? 1 = some v1) (h3 : args.get? 3 = some v3)
    (h4 : args.get? 4 = some v4) (h7 : args.get? 7 = some v7)
    (h15 : args.get? 15 = some v15) :
    build_gateway_token args computer = .ok (joinAmp
      (([(ascii "authcookie", v1), (ascii "portal", v3), (ascii "user", v4),
        (ascii "domain", v7), (ascii "preferred-ip", v15), (ascii "computer", computer)]
        ++ optField (ascii "persistent-cookie") (read_optional_arg args 2)
        ++ optField (ascii "portal-userauthcookie") (read_optional_arg args 16)
        ++ optField (ascii "portal-prelogonuserauthcookie") (read_optional_arg args 17)).map
          encodePair)) :=
  build_gateway_token_eq args computer v1 v3 v4 v7 v15 h1 h3 h4 h7 h15

/-- Witness for C1 at the 16-slot test argument array. -/
theorem C1_token_fixed_order_witness :
    build_gateway_token testArgs16 (ascii "test-host") = .ok (joinAmp
      (([(ascii "authcookie", ascii "cookie-value"), (ascii "portal", ascii "GP-Gateway-N"),
        (ascii "user", ascii "user@example.com"), (ascii "domain", ascii "%28empty_domain%29"),
        (ascii "preferred-ip", ascii "198.51.100.12"), (ascii "computer", ascii "test-host")]
        ++ optField (ascii "persistent-cookie") (read_optional_arg testArgs16 2)
        ++ optField (ascii "portal-userauthcookie") (read_optional_arg testArgs16 16)
        ++ optField (ascii "portal-prelogonuserauthcookie") (read_optional_arg testArgs16 17)).map
          encodePair)) :=
  C1_token_fixed_order testArgs16 (ascii "test-host")
    (ascii "cookie-value") (ascii "GP-Gateway-N") (ascii "user@example.com")
    (ascii "%28empty_domain%29") (ascii "198.51.100.12") rfl rfl rfl rfl rfl

/-- Claim C2: for a value containing a percent character the normalization
percent-decodes it exactly once (when decoding succeeds), values without a
percent character pass through unmodified, the round trip
`decode (encode (normalize v)) = normalize v` holds, and the slot-7 example
`%28empty_domain%29` yields a token containing `domain=%28empty_domain%29`
and not the doubly-encoded `domain=%2528empty_domain%2529`. -/
theorem C2_normalize_roundtrip (v : Str) (hb : ∀ b ∈ v, b < 256)
    (hu : utf8Valid v = true) :
    (v.contains 37 = false → normalize_token_value v = v) ∧
    (∀ d, v.contains 37 = true → decodeStr v = some d → normalize_token_value v = d) ∧
    decodeStr (encode (normalize_token_value v)) = some (normalize_token_value v) ∧
    build_gateway_token testArgs16 (ascii "test-host") = .ok gatewayTokenExample ∧
    containsSub (ascii "domain=%28empty_domain%29") gatewayTokenExample = true ∧
    containsSub (ascii "domain=%2528empty_domain%2529") gatewayTokenExample = false := by
  refine ⟨?_, ?_, ?_, by rfl, by rfl, by rfl⟩
  · intro h
    unfold normalize_token_value
    rw [if_neg (by rw [h]; simp)]
  · intro d h hd
    unfold normalize_token_value
    rw [if_pos h, hd]
    rfl
  · by_cases hc : v.contains 37 = true
    · cases hv : utf8Valid (decodeBinary v) with
      | false =>
        have hd : decodeStr v = none := by simp [decodeStr, hv]
        have hn : normalize_token_value v = v := by
          unfold normalize_token_value
          rw [if_pos hc, hd]
          rfl
        rw [hn]
        exact decodeStr_encode v hb hu
      | true =>
        have hd : decodeStr v = some (decodeBinary v) := by simp [decodeStr, hv]
        have hn : normalize_token_value v = decodeBinary v := by
          unfold normalize_token_value
          rw [if_pos hc, hd]
          rfl
        rw [hn]
        exact decodeStr_encode _ (decodeBinary_lt v hb) hv
    · have hn : normalize_token_value v = v := by
        unfold normalize_token_value
        rw [if_neg hc]
      rw [hn]
      exact decodeStr_encode v hb hu

/-- Witness for C2 at the percent-encoded domain value. -/
theorem C2_normalize_roundtrip_witness :
    decodeStr (encode (normalize_token_value (ascii "%28empty_domain%29"))) =
      some (normalize_token_value (ascii "%28empty_domain%29")) :=
  (C2_normalize_roundtrip (ascii "%28empty_domain%29") (by decide) (by decide)).2.2.1

/-- Claim C3: if any mandatory slot (1, 3, 4, 7 or 15) is absent,
`build_gateway_token` fails entirely with an error message naming the
missing field, and never returns a token. -/
theorem C3_missing_mandatory_fails (args : List Str) (computer : Str)
    (h : args.get? 1 = none ∨ args.get? 3 = none ∨ args.get? 4 = none ∨
         args.get? 7 = none ∨ args.get? 15 = none) :
    ∃ idx key,
      (idx, key) ∈ [(1, ascii "authcookie"), (3, ascii "portal"), (4, ascii "user"),
        (7, ascii "domain"), (15, ascii "preferred-ip")] ∧
      args.get? idx = none ∧
      build_gateway_token args computer =
        .error (ascii "Failed to read " ++ key ++ ascii " from args") ∧
      ∀ t, build_gateway_token args computer ≠ .ok t := by
  cases h1 : args.get? 1 with
  | none =>
    have he : build_gateway_token args computer =
        .error (ascii "Failed to read " ++ ascii "authcookie" ++ ascii " from args") := by
      unfold build_gateway_token gatewayTokenParams read_args
      rw [h1]
      rfl
    exact ⟨1, ascii "authcookie", by simp, h1, he, by simp [he]⟩
  | some v1 =>
  cases h3 : args.get? 3 with
  | none =>
    have he : build_gateway_token args computer =
        .error (ascii "Failed to read " ++ ascii "portal" ++ ascii " from args") := by
      unfold build_gateway_token gatewayTokenParams read_args
      rw [h1, h3]
      rfl
    exact ⟨3, ascii "portal", by simp, h3, he, by simp [he]⟩
  | some v3 =>
  cases h4 : args.get? 4 with
  | none =>
    have he : build_gateway_token args computer =
        .error (ascii "Failed to read " ++ ascii "user" ++ ascii " from args") := by
      unfold build_gateway_token gatewayTokenParams read_args
      rw [h1, h3, h4]
      rfl
    exact ⟨4, ascii "user", by simp, h4, he, by simp [he]⟩
  | some v4 =>
  cases h7 : args.get? 7 with
  | none =>
    have he : build_gateway_token args computer =
        .error (ascii "Failed to read " ++ ascii "domain" ++ ascii " from args") := by
      unfold build_gateway_token gatewayTokenParams read_args
      rw [h1, h3, h4, h7]
      rfl
    exact ⟨7, ascii "domain", by simp, h7, he, by simp [he]⟩
  | some v7 =>
  cases h15 : args.get? 15 with
  | none =>
    have he : build_gateway_token args computer =
        .error (ascii "Failed to read " ++ ascii "preferred-ip" ++ ascii " from args") := by
      unfold build_gateway_token gatewayTokenParams read_args
      rw [h1, h3, h4, h7, h15]
      rfl
    exact ⟨15, ascii "preferred-ip", by simp, h15, he, by simp [he]⟩
  | some v15 =>
    rcases h with h | h | h | h | h <;> simp_all

/-- Witness for C3 at the empty argument array. -/
theorem C3_missing_mandatory_fails_witness :
    ∃ idx key,
      (idx, key) ∈ [(1, ascii "authcookie"), (3, ascii "portal"), (4, ascii "user"),
        (7, ascii "domain"), (15, ascii "preferred-ip")] ∧
      ([] : List Str).get? idx = none ∧
      build_gateway_token [] (ascii "computer-name") =
        .error (ascii "Failed to read " ++ key ++ ascii " from args") ∧
      ∀ t, build_gateway_token [] (ascii "computer-name") ≠ .ok t :=
  C3_missing_mandatory_fails [] (ascii "computer-name") (Or.inl rfl)

/-- Claim C10: a token value containing a percent character whose
percent-decoding fails is passed through raw by `normalize_token_value`,
and `build_gateway_token` never fails because of a malformed percent
encoding in a slot value — with the mandatory slots present it always
returns a token. -/
theorem C10_decode_failure_fallback (v : Str) (hp : v.contains 37 = true)
    (hf : decodeStr v = none) :
    normalize_token_value v = v ∧
    ∀ (args : List Str) (computer v1 v3 v4 v7 v15 : Str),
      args.get? 1 = some v1 → args.get? 3 = some v3 → args.get? 4 = some v4 →
      args.get? 7 = some v7 → args.get? 15 = some v15 →
      ∃ t, build_gateway_token args computer = .ok t := by
  refine ⟨by simp [normalize_token_value, hp, hf], ?_⟩
  intro args computer v1 v3 v4 v7 v15 h1 h3 h4 h7 h15
  exact ⟨_, build_gateway_token_eq args computer v1 v3 v4 v7 v15 h1 h3 h4 h7 h15⟩

/-- Witness for C10 at the value `%C3` (decodes to a lone UTF-8 lead byte,
so `urlencoding::decode` fails) sitting in the domain slot. -/
theorem C10_decode_failure_fallback_witness :
    normalize_token_value (ascii "%C3") = ascii "%C3" ∧
    ∃ t, build_gateway_token badPercentArgs16 (ascii "comp") = .ok t :=
  ⟨(C10_decode_failure_fallback (ascii "%C3") (by decide) (by decide)).1,
    (C10_decode_failure_fallback (ascii "%C3") (by decide) (by decide)).2
      badPercentArgs16 (ascii "comp") (ascii "cookie-value") (ascii "GP-Gateway-N")
      (ascii "user") (ascii "%C3") (ascii "198.51.100.12") rfl rfl rfl rfl rfl⟩

/-- Claim C4: an optional slot in {2, 16, 17} contributes its field
(persistent-cookie / portal-userauthcookie / portal-prelogonuserauthcookie)
to the parameter list — and hence to the token, which is the rendered join
of that list — if and only if the slot is present and its value is not a
sentinel (`""`, `"(null)"`, `"-1"`, `"empty"`); the value appears verbatim
in the pair, and otherwise the key is absent from the list entirely. -/
theorem C4_optional_fields (args : List Str) (computer v1 v3 v4 v7 v15 : Str)
    (h1 : args.get? 1 = some v1) (h3 : args.get? 3 = some v3)
    (h4 : args.get? 4 = some v4) (h7 : args.get? 7 = some v7)
    (h15 : args.get? 15 = some v15) :
    ∃ ps, gatewayTokenParams args computer = .ok ps ∧
      build_gateway_token args computer = .ok (joinAmp (ps.map encodePair)) ∧
      (∀ v, ((ascii "persistent-cookie", v) ∈ ps ↔
        (args.get? 2 = some v ∧ isSentinel v = false))) ∧
      (∀ v, ((ascii "portal-userauthcookie", v) ∈ ps ↔
        (args.get? 16 = some v ∧ isSentinel v = false))) ∧
      (∀ v, ((ascii "portal-prelogonuserauthcookie", v) ∈ ps ↔
        (args.get? 17 = some v ∧ isSentinel v = false))) := by
  refine ⟨_, gatewayTokenParams_eq args computer v1 v3 v4 v7 v15 h1 h3 h4 h7 h15,
    build_gateway_token_eq args computer v1 v3 v4 v7 v15 h1 h3 h4 h7 h15, ?_, ?_, ?_⟩
  all_goals intro v
  all_goals rw [← read_optional_arg_eq_some]
  all_goals simp +decide [List.mem_append, List.mem_cons, mem_optField, Prod.mk.injEq]

/-- Witness for C4 at the 18-slot test argument array. -/
theorem C4_optional_fields_witness :
    ∃ ps, gatewayTokenParams testArgs18 (ascii "test-host") = .ok ps ∧
      build_gateway_token testArgs18 (ascii "test-host") = .ok (joinAmp (ps.map encodePair)) ∧
      (∀ v, ((ascii "persistent-cookie", v) ∈ ps ↔
        (testArgs18.get? 2 = some v ∧ isSentinel v = false))) ∧
      (∀ v, ((ascii "portal-userauthcookie", v) ∈ ps ↔
        (testArgs18.get? 16 = some v ∧ isSentinel v = false))) ∧
      (∀ v, ((ascii "portal-prelogonuserauthcookie", v) ∈ ps ↔
        (testArgs18.get? 17 = some v ∧ isSentinel v = false))) :=
  C4_optional_fields testArgs18 (ascii "test-host")
    (ascii "cookie-value") (ascii "GP-Gateway-N") (ascii "user@example.com")
    (ascii "%28empty_domain%29") (ascii "198.51.100.12") rfl rfl rfl rfl rfl

/-- Claim C5: MFA parsing scans the body line by line, taking the first
quoted substring of the line containing `respMsg` and of the line containing
`inputStr`; if either line or either quoted substring is missing the result
is `none` (an error, never a partial value); on the sample challenge body it
yields the message and input token. -/
theorem C5_parse_mfa (res : Str) :
    (mfaMessage res = none ∨ mfaInput res = none → parse_mfa res = none) ∧
    (∀ m i, parse_mfa res = some (m, i) →
      mfaMessage res = some m ∧ mfaInput res = some i) ∧
    (∀ m, mfaMessage res = some m → ∃ l, l ∈ linesOf res ∧
      containsSub (ascii "respMsg") l = true ∧ (splitByte 34 l).get? 1 = some m) ∧
    (∀ i, mfaInput res = some i → ∃ l, l ∈ linesOf res ∧
      containsSub (ascii "inputStr") l = true ∧ (splitByte 34 l).get? 1 = some i) ∧
    parse_mfa mfaExampleBody = some (ascii "MFA message", ascii "5ef64e83000119ed") := by
  refine ⟨?_, ?_, ?_, ?_, by rfl⟩
  · intro h
    unfold parse_mfa
    rcases h with h | h
    · rw [h]; rfl
    · cases hm : mfaMessage res with
      | none => rfl
      | some m => rw [h]; rfl
  · intro m i h
    unfold parse_mfa at h
    cases hm : mfaMessage res with
    | none => rw [hm] at h; exact absurd h (by simp)
    | some m' =>
      rw [hm] at h
      cases hi : mfaInput res with
      | none => rw [hi] at h; exact absurd h (by simp)
      | some i' =>
        rw [hi] at h
        have h2 : (some (m', i') : Option (Str × Str)) = some (m, i) := h
        simp only [Option.some.injEq, Prod.mk.injEq] at h2
        exact ⟨by rw [h2.1], by rw [h2.2]⟩
  · intro m hm
    unfold mfaMessage at hm
    obtain ⟨l, hfind, hsplit⟩ := Option.bind_eq_some.mp hm
    exact ⟨l, List.mem_of_find?_eq_some hfind, List.find?_some hfind, hsplit⟩
  · intro i hi
    unfold mfaInput at hi
    obtain ⟨l, hfind, hsplit⟩ := Option.bind_eq_some.mp hi
    exact ⟨l, List.mem_of_find?_eq_some hfind, List.find?_some hfind, hsplit⟩

/-- Witness for C5: a body with no MFA markers parses to `none`. -/
theorem C5_parse_mfa_witness :
    parse_mfa (ascii "var respStatus = \"Success\";") = none :=
  (C5_parse_mfa (ascii "var respStatus = \"Success\";")).1 (Or.inl (by rfl))

/-- Claim C6: the redaction filter locates the `pin-value=` marker (at its
first occurrence), finds the value span terminated by the first delimiter
from the fixed set (or the end of the input when none occurs), replaces
exactly that span with `<redacted>` — the output is the unchanged prefix up
to the end of the marker, the redaction marker, and the unchanged bytes from
the first delimiter on; the example line is redacted as specified and an
input without the marker passes through byte-for-byte unchanged. -/
theorem C6_redaction (msg : Str) :
    (containsSub pinMarker msg = false → redact_pkcs11_pin msg = msg) ∧
    (∀ s, findSub pinMarker msg = some s →
      leadEq pinMarker (msg.drop s) = true ∧
      (∀ j, j < s → leadEq pinMarker (msg.drop j) = false) ∧
      ∃ rel, rel ≤ (msg.drop (s + pinMarker.length)).length ∧
        (∀ j b, j < rel → (msg.drop (s + pinMarker.length)).get? j = some b →
          isPinDelim b = false) ∧
        ((∃ b, (msg.drop (s + pinMarker.length)).get? rel = some b ∧ isPinDelim b = true) ∨
          rel = (msg.drop (s + pinMarker.length)).length) ∧
        redact_pkcs11_pin msg =
          msg.take (s + pinMarker.length) ++ ascii "<redacted>" ++
            msg.drop (s + pinMarker.length + rel)) ∧
    redact_pkcs11_pin (ascii "pin-value=1234&rest=stuff") =
      ascii "pin-value=<redacted>&rest=stuff" := by
  refine ⟨?_, ?_, by rfl⟩
  · intro h
    unfold redact_pkcs11_pin
    rw [containsSub_false_findSub _ _ h]
  · intro s hs
    obtain ⟨hlead, hbefore⟩ := findSub_some_spec _ _ _ hs
    refine ⟨hlead, hbefore, ?_⟩
    cases hfi : findIdxB isPinDelim (msg.drop (s + pinMarker.length)) with
    | some rel =>
      obtain ⟨⟨b, hget, hpb⟩, hbef⟩ := findIdxB_some_spec _ _ _ hfi
      have hlt : rel < (msg.drop (s + pinMarker.length)).length := by
        rcases List.get?_eq_some.mp hget with ⟨hl, _⟩
        exact hl
      refine ⟨rel, le_of_lt hlt, hbef, Or.inl ⟨b, hget, hpb⟩, ?_⟩
      unfold redact_pkcs11_pin
      rw [hs]
      simp [hfi]
    | none =>
      have hall := findIdxB_none_spec _ _ hfi
      refine ⟨(msg.drop (s + pinMarker.length)).length, le_refl _, ?_, Or.inr rfl, ?_⟩
      · intro j b hj hget
        exact hall b (List.get?_mem hget)
      · unfold redact_pkcs11_pin
        rw [hs]
        simp [hfi]

/-- Witness for C6: a line without the marker is returned unchanged. -/
theorem C6_redaction_witness :
    redact_pkcs11_pin (ascii "Connected as 10.0.0.1") = ascii "Connected as 10.0.0.1" :=
  (C6_redaction (ascii "Connected as 10.0.0.1")).1 (by rfl)

/-- Counterexample for claim C7 as stated: the delimiter set does not
include the newline, so on `pin-value=1\nxy` (a line boundary after the
marker, no delimiter before it) the replaced span runs across the newline:
the output is `pin-value=<redacted>` and the bytes at and after the first
newline following the marker (`\nxy`, at byte 11) are not preserved. -/
theorem C7_line_scope_cex :
    findSub pinMarker (ascii "pin-value=1\nxy") = some 0 ∧
    findSub (ascii "\n") (ascii "pin-value=1\nxy") = some 11 ∧
    redact_pkcs11_pin (ascii "pin-value=1\nxy") = ascii "pin-value=<redacted>" ∧
    (ascii "\nxy").isSuffixOf (redact_pkcs11_pin (ascii "pin-value=1\nxy")) = false := by
  refine ⟨by rfl, by rfl, by rfl, by rfl⟩

/-- Claim C7 (amended): when a delimiter from the fixed set occurs in the
value span no later than the first newline following the marker, the
replaced span does not extend across that line boundary: all bytes from
that newline on are a suffix of the output, unchanged. -/
theorem C7_line_scope (msg : Str) (s rel nrel : Nat)
    (hm : findSub pinMarker msg = some s)
    (hd : findIdxB isPinDelim (msg.drop (s + pinMarker.length)) = some rel)
    (hn : findIdxB (fun b => b == 10) (msg.drop (s + pinMarker.length)) = some nrel)
    (hle : rel ≤ nrel) :
    msg.drop (s + pinMarker.length + nrel) <:+ redact_pkcs11_pin msg := by
  have he : redact_pkcs11_pin msg =
      msg.take (s + pinMarker.length) ++ ascii "<redacted>" ++
        msg.drop (s + pinMarker.length + rel) := by
    unfold redact_pkcs11_pin
    rw [hm]
    simp [hd]
  rw [he]
  have h2 : msg.drop (s + pinMarker.length + nrel) =
      (msg.drop (s + pinMarker.length + rel)).drop (nrel - rel) := by
    rw [List.drop_drop]
    congr 1
    omega
  rw [h2]
  exact (List.drop_suffix _ _).trans (List.suffix_append _ _)

/-- Witness for C7 (amended): in `pin-value=12&ok\nrest` the delimiter `&`
precedes the newline, so the bytes from the newline on survive redaction. -/
theorem C7_line_scope_witness :
    (ascii "pin-value=12&ok\nrest").drop (0 + pinMarker.length + 5) <:+
      redact_pkcs11_pin (ascii "pin-value=12&ok\nrest") :=
  C7_line_scope (ascii "pin-value=12&ok\nrest") 0 2 5 (by rfl) (by rfl) (by rfl)
    (by omega)

/-- Claim C8: any getconfig response carrying the enforcement header
`x-private-pan-globalprotect: HIP_REQUIRED` is classified as the
HipRequired outcome regardless of its status code; the mock HIP-policy
handler answers a non-satisfying credential with exactly such a 403
response, and a satisfying credential yields a PortalConfig whose
auth-cookie fields equal the server-supplied fixture values. -/
theorem C8_hip_required (st : Nat) (hs : List (Str × Str)) (b : PortalBody)
    (h : lookupHeader hs hipHeaderName = some hipRequiredValue) :
    classifyGetconfig ⟨st, hs, b⟩ = .hipRequired ∧
    (handle_hip_policy_getconfig
      [(ascii "portal-userauthcookie", ascii "no-hip-cookie")]).status = 403 ∧
    lookupHeader (handle_hip_policy_getconfig
      [(ascii "portal-userauthcookie", ascii "no-hip-cookie")]).headers hipHeaderName =
      some hipRequiredValue ∧
    classifyGetconfig (handle_hip_policy_getconfig
      [(ascii "portal-userauthcookie", ascii "no-hip-cookie")]) = .hipRequired ∧
    classifyGetconfig (handle_hip_policy_getconfig
      [(ascii "portal-userauthcookie", ascii "hip-ok-cookie")]) =
      .success ⟨ascii "alice", ascii "xxxxxx", ascii "xxxxxx"⟩ := by
  refine ⟨?_, by rfl, by rfl, by rfl, by rfl⟩
  unfold classifyGetconfig
  rw [h]
  rfl

/-- Witness for C8 at a concrete 403 response carrying the header. -/
theorem C8_hip_required_witness :
    classifyGetconfig ⟨403, [(hipHeaderName, hipRequiredValue)],
      .text (ascii "HIP report is required by policy")⟩ = .hipRequired :=
  (C8_hip_required 403 [(hipHeaderName, hipRequiredValue)]
    (.text (ascii "HIP report is required by policy")) (by rfl)).1

/-- Counterexample for claim C9 as stated: quantifying over every
executability predicate, an empty override that the predicate deems
executable is still not retained — the code filters out empty overrides
before the executability check, so the first default location wins. -/
theorem C9_wrapper_cex :
    (fun _ => true : Str → Bool) [] = true ∧
    resolve_csd_wrapper (fun _ => true) (some []) [ascii "/fallback"] =
      some (ascii "/fallback") ∧
    resolve_csd_wrapper (fun _ => true) (some []) [ascii "/fallback"] ≠ some [] := by
  refine ⟨rfl, by rfl, ?_⟩
  intro h
  have h2 : (some (ascii "/fallback") : Option Str) = some [] := by
    rw [← h]
    rfl
  simp [ascii] at h2

/-- Claim C9 (amended): the override is retained if and only if it is
non-empty and executable; otherwise the result is the first entry of the
location list that is executable, and `none` when no entry qualifies;
`find_csd_wrapper` probes exactly the fixed default location list. -/
theorem C9_wrapper_resolution (isExec : Str → Bool) (ov : Option Str) (locs : List Str) :
    (∀ p, ov = some p → p ≠ [] → isExec p = true →
      resolve_csd_wrapper isExec ov locs = some p) ∧
    ((ov = none ∨ ov = some [] ∨ (∃ p, ov = some p ∧ isExec p = false)) →
      resolve_csd_wrapper isExec ov locs = locs.find? isExec) ∧
    (∀ r i, locs.get? i = some r → isExec r = true →
      (∀ j b, j < i → locs.get? j = some b → isExec b = false) →
      locs.find? isExec = some r) ∧
    ((∀ l ∈ locs, isExec l = false) → locs.find? isExec = none) ∧
    find_csd_wrapper isExec ov = resolve_csd_wrapper isExec ov CSD_WRAPPER_LOCATIONS := by
  refine ⟨?_, ?_, ?_, ?_, by rfl⟩
  · rintro p rfl hne hx
    unfold resolve_csd_wrapper
    rw [Option.filter_some, if_pos (by simpa using hne)]
    simp [hx]
  · intro h
    rcases h with rfl | rfl | ⟨p, rfl, hx⟩
    · rfl
    · rfl
    · unfold resolve_csd_wrapper
      rw [Option.filter_some]
      by_cases hp : p = []
      · subst hp; rfl
      · rw [if_pos (by simpa using hp)]
        simp [hx]
  · intro r i
    induction locs generalizing i with
    | nil => intro hget; simp at hget
    | cons a rest ih =>
      intro hget hx hbef
      cases i with
      | zero =>
        obtain rfl : a = r := by simpa using hget
        rw [List.find?_cons_of_pos _ hx]
      | succ i' =>
        have ha : isExec a = false := hbef 0 a (by omega) rfl
        rw [List.find?_cons_of_neg _ (by simp [ha])]
        exact ih i' (by simpa using hget) hx
          (fun j b hj hg => hbef (j + 1) b (by omega) (by simpa using hg))
  · intro h
    exact List.find?_eq_none.mpr (fun x hx => by simp [h x hx])

/-- Witness for C9 (amended): a non-empty executable override is retained. -/
theorem C9_wrapper_resolution_witness :
    resolve_csd_wrapper (fun p => p == ascii "/opt/hip.sh") (some (ascii "/opt/hip.sh"))
      CSD_WRAPPER_LOCATIONS = some (ascii "/opt/hip.sh") :=
  (C9_wrapper_resolution (fun p => p == ascii "/opt/hip.sh")
    (some (ascii "/opt/hip.sh")) CSD_WRAPPER_LOCATIONS).1
    (ascii "/opt/hip.sh") rfl (by decide) (by decide)

end GP

